import Mathlib

/-!
Shallow embedding of the GIF-maker encoding pipeline
(`src/workers/ffmpeg.worker.ts` and the worker-facing part of `src/App.tsx`).

The worker listens for `{type: "encode", payload}` messages, lazily loads a
single shared ffmpeg.wasm instance, runs a two-pass palette encode over three
fixed scratch file names, posts either a `{type: "done", data}` message or a
`{ratio: 1, message}` progress-shaped message, and attempts scratch cleanup.

The ffmpeg engine is opaque: it is modelled as an oracle (`Engine`) giving the
outcome of each call the handler makes, in call order.  JS numbers are
modelled as rationals (the operations the code performs on them — `min`,
`max`, subtraction by 0.1 — are exact in IEEE double for the ranges involved,
so order-theoretic facts transfer).  String interpolation is modelled by
explicit concatenation in the same left-to-right order as the template
literals in the source.
-/

namespace Giffer

/-- Quality tier of an encode request (`'low' | 'medium' | 'high'`). -/
inductive Quality
  | low
  | medium
  | high
deriving DecidableEq

/-- Result of `pickQualitySettings`: a dithering algorithm string and a
scaling-flags string for the ffmpeg filter graph. -/
structure QualitySettings where
  dither : String
  scaleFlags : String
deriving DecidableEq

/-- Translation of `pickQualitySettings` in `ffmpeg.worker.ts`: the
`switch` maps `'low'` and `'high'` explicitly and everything else (the
`default` branch, i.e. `'medium'`) to Floyd–Steinberg/bicubic. -/
def pickQualitySettings (q : Quality) : QualitySettings :=
  match q with
  | .low => { dither := "bayer:bayer_scale=5", scaleFlags := "bilinear" }
  | .high => { dither := "sierra2_4a", scaleFlags := "lanczos" }
  | .medium => { dither := "floyd_steinberg", scaleFlags := "bicubic" }

/-- Translation of the worker's `EncodePayload` type.  `file` is the raw byte
buffer; times are seconds as rationals. -/
structure EncodePayload where
  file : List Nat
  startSec : ℚ
  endSec : ℚ
  fps : Nat
  width : Nat
  loop : Bool
  quality : Quality

/-- Translation of `const start = Math.max(0, Math.min(p.startSec, p.endSec - 0.1))`
in the encode handler. -/
def normStart (startSec endSec : ℚ) : ℚ :=
  max 0 (min startSec (endSec - 1/10))

/-- Translation of `const duration = Math.max(0.1, p.endSec - start)` in the
encode handler. -/
def normDuration (startSec endSec : ℚ) : ℚ :=
  max (1/10) (endSec - normStart startSec endSec)

/-- Modelled from the spec: section 4.2 gives the Segment Normalizer the
signature `normalize(startSec, endSec, mediaDuration)` with
`start = clamp(min(startSec, endSec - 0.1), 0, mediaDuration)`.  The source
handler has no `mediaDuration` argument and no upper clamp; this definition
follows the spec's words so the two can be compared. -/
def normalizeSpecStart (startSec endSec mediaDuration : ℚ) : ℚ :=
  min (max 0 (min startSec (endSec - 1/10))) mediaDuration

/-- Scratch slot name `const inputName = 'input.mp4'`. -/
def inputName : String := "input.mp4"

/-- Scratch slot name `const palette = 'palette.png'`. -/
def palette : String := "palette.png"

/-- Scratch slot name `const output = 'output.gif'`. -/
def output : String := "output.gif"

/-- Translation of `const loopFlag = p.loop ? '0' : '1'`. -/
def loopFlag (loop : Bool) : String :=
  if loop then "0" else "1"

/-- String rendering of a JS number, kept abstract as ℚ rendering: both exec
argv builders apply it to the same rational, which is all the claims need. -/
def numStr (x : ℚ) : String := toString x

/-- Value of `String(start)` in both exec calls. -/
def ssArg (p : EncodePayload) : String := numStr (normStart p.startSec p.endSec)

/-- Value of `String(duration)` in both exec calls. -/
def tArg (p : EncodePayload) : String := numStr (normDuration p.startSec p.endSec)

/-- Translation of the `-vf` template literal of pass 1:
`fps=${p.fps},scale=${p.width}:-1:flags=${q.scaleFlags},palettegen`. -/
def vfArg (p : EncodePayload) : String :=
  "fps=" ++ toString p.fps ++ ",scale=" ++ toString p.width ++ ":-1:flags="
    ++ (pickQualitySettings p.quality).scaleFlags ++ ",palettegen"

/-- Translation of the `-lavfi` template literal of pass 2:
`fps=${p.fps},scale=${p.width}:-1:flags=${q.scaleFlags} [x]; [x][1:v] paletteuse=dither=${q.dither}`. -/
def lavfiArg (p : EncodePayload) : String :=
  "fps=" ++ toString p.fps ++ ",scale=" ++ toString p.width ++ ":-1:flags="
    ++ (pickQualitySettings p.quality).scaleFlags
    ++ " [x]; [x][1:v] paletteuse=dither=" ++ (pickQualitySettings p.quality).dither

/-- Shared frame-rate/scale filter chain of both passes (the common prefix of
the two template literals above). -/
def filterChain (p : EncodePayload) : String :=
  "fps=" ++ toString p.fps ++ ",scale=" ++ toString p.width ++ ":-1:flags="
    ++ (pickQualitySettings p.quality).scaleFlags

/-- Argv of the pass-1 (palette generation) `ff.exec` call. -/
def paletteArgs (p : EncodePayload) : List String :=
  ["-ss", ssArg p, "-t", tArg p, "-i", inputName, "-vf", vfArg p, palette]

/-- Argv of the pass-2 (palette application) `ff.exec` call. -/
def encodeArgs (p : EncodePayload) : List String :=
  ["-ss", ssArg p, "-t", tArg p, "-i", inputName, "-i", palette,
   "-lavfi", lavfiArg p, "-loop", loopFlag p.loop, output]

/-- Oracle for the opaque ffmpeg engine: the outcome of each call the encode
handler makes, in program order.  An `Except.error e` models the call
rejecting with an error whose `message` is `e`. -/
structure Engine where
  loadResult : Except String Unit
  writeResult : Except String Unit
  exec1Result : Except String Unit
  exec2Result : Except String Unit
  readResult : Except String (List Nat)
  deleteOk : String → Bool

/-- Whether an engine call succeeded. -/
def exOk {α : Type} : Except String α → Bool
  | .ok _ => true
  | .error _ => false

/-- Whether every step up to and including the readback succeeds. -/
def allOk (eng : Engine) : Bool :=
  exOk eng.loadResult && exOk eng.writeResult && exOk eng.exec1Result
    && exOk eng.exec2Result && exOk eng.readResult

/-- Messages the worker posts (`self.postMessage`): progress-shaped
`{ratio, message?}`, `{type: 'done', data}`, or `{type: 'log', message}`
(the last appears in the UI's message type but is never posted by the
handler). -/
inductive WorkerMsg
  | progress (r : ℚ) (msg : Option String)
  | done (data : List Nat)
  | log (msg : String)
deriving DecidableEq

/-- Translation of `err?.message || 'encode failed'`: an empty message string
is falsy in JS, so it falls back to the literal. -/
def errText (e : String) : String :=
  if e = "" then "encode failed" else e

/-- Scratch deletions the cleanup block attempts.  The source wraps the three
`await ff.deleteFile(...)` calls in one `try { } catch {}`: the input slot is
always attempted first, and a rejection aborts the block, skipping the
remaining slots (the rejection itself is swallowed). -/
def cleanupAttempts (eng : Engine) : List String :=
  inputName ::
    (if eng.deleteOk inputName then
      palette :: (if eng.deleteOk palette then [output] else [])
    else [])

/-- Observable outcome of one encode request: the messages the handler posts,
the argv of each `ff.exec` call it makes, and the scratch deletions it
attempts, in order. -/
structure EncodeTrace where
  msgs : List WorkerMsg
  execCalls : List (List String)
  deletions : List String
deriving DecidableEq

/-- Translation of the worker's `message` listener body for an `encode`
message.  The `try` block runs `ensureFfmpeg`, `writeFile`, the two `exec`
passes and `readFile` in order; the first rejection jumps to the `catch`
branch, which posts `{ratio: 1, message: err?.message || 'encode failed'}`
and nothing else (in particular no scratch deletion happens there).  On
success the handler posts `{type: 'done', data}` and then attempts cleanup. -/
def handleEncode (eng : Engine) (p : EncodePayload) : EncodeTrace :=
  match eng.loadResult with
  | .error e => ⟨[.progress 1 (some (errText e))], [], []⟩
  | .ok _ =>
    match eng.writeResult with
    | .error e => ⟨[.progress 1 (some (errText e))], [], []⟩
    | .ok _ =>
      match eng.exec1Result with
      | .error e => ⟨[.progress 1 (some (errText e))], [paletteArgs p], []⟩
      | .ok _ =>
        match eng.exec2Result with
        | .error e =>
          ⟨[.progress 1 (some (errText e))], [paletteArgs p, encodeArgs p], []⟩
        | .ok _ =>
          match eng.readResult with
          | .error e =>
            ⟨[.progress 1 (some (errText e))], [paletteArgs p, encodeArgs p], []⟩
          | .ok data =>
            ⟨[.done data], [paletteArgs p, encodeArgs p], cleanupAttempts eng⟩

/-- Translation of the clamp in the engine progress subscription installed by
`ensureFfmpeg`: `postMessage({ratio: Math.max(0, Math.min(1, progress))})`. -/
def clampProgress (progress : ℚ) : ℚ :=
  max 0 (min 1 progress)

/-- The module-level `FFmpeg` instance: `loaded` records whether its `load()`
ever succeeded. -/
structure FFmpegInst where
  loaded : Bool
deriving DecidableEq

/-- The worker module's session state: `let ffmpeg: FFmpeg | null = null` and
`let isLoading = false`. -/
structure SessionState where
  ffmpeg : Option FFmpegInst
  isLoading : Bool
deriving DecidableEq

/-- Result of one `ensureFfmpeg()` call: the instance returned (`none` when
the call rejects or would suspend forever), the module state afterwards, and
whether this call invoked `load()`. -/
structure AcquireOutcome where
  result : Option FFmpegInst
  state : SessionState
  loadInvoked : Bool
deriving DecidableEq

/-- Module state at worker start. -/
def initialSession : SessionState := ⟨none, false⟩

/-- Translation of `ensureFfmpeg` in `ffmpeg.worker.ts`, sequential
semantics parameterised by whether `load()` succeeds:
`if (ffmpeg) return ffmpeg` returns whatever instance is cached (loaded or
not) without calling `load()`; otherwise the caller sets `isLoading`,
assigns `ffmpeg = new FFmpeg()`, and awaits `ffmpeg.load()` inside
`try { } finally { isLoading = false }` — so on a load rejection the
exception propagates but `ffmpeg` keeps pointing at the never-loaded
instance.  The `isLoading` busy-wait branch cannot be observed at an await
point (both assignments happen before the first await) and is modelled as
the caller staying suspended. -/
def ensureFfmpeg (st : SessionState) (loadSucceeds : Bool) : AcquireOutcome :=
  match st.ffmpeg with
  | some inst => ⟨some inst, st, false⟩
  | none =>
    if st.isLoading then
      ⟨none, st, false⟩
    else if loadSucceeds then
      ⟨some ⟨true⟩, ⟨some ⟨true⟩, false⟩, true⟩
    else
      ⟨none, ⟨some ⟨false⟩, false⟩, true⟩

/-- Session state after a first `ensureFfmpeg()` whose `load()` rejected. -/
def failedLoadSession : SessionState :=
  (ensureFfmpeg initialSession false).state

/-- Action the UI's `handleMessage` (inside `useFfmpegWorker.encode` in
`App.tsx`) takes on one worker message: any message with a `ratio` field is
forwarded to `onProgress`, a `log` message is ignored, and only a `done`
message resolves the Promise.  No message ever rejects it (the sole
rejection, `Worker not ready`, happens before any message arrives). -/
inductive UIAction
  | deliverProgress (r : ℚ) (msg : Option String)
  | ignore
  | resolve (data : List Nat)
deriving DecidableEq

/-- Translation of the UI's `handleMessage` dispatch. -/
def handleMessage : WorkerMsg → UIAction
  | .progress r m => .deliverProgress r m
  | .log _ => .ignore
  | .done d => .resolve d

/-- Bytes with which the UI Promise settles, given the worker's message
trace: the first `done` payload, or `none` if the Promise stays pending
(it can never reject from a message, as `handleMessage` shows). -/
def settlesWith (msgs : List WorkerMsg) : Option (List Nat) :=
  msgs.findSome? (fun m =>
    match handleMessage m with
    | .resolve d => some d
    | _ => none)

/-- Engine calls the handler awaits for one request on the success path, in
program order.  Each is an `await`, i.e. a point where the worker's event
loop may run another handler invocation. -/
inductive EngineOp
  | writeFile (name : String)
  | exec (args : List String)
  | readFile (name : String)
  | deleteFile (name : String)
deriving DecidableEq

/-- Per-request sequence of awaited engine calls made by the encode handler
(success path).  The body consults no in-flight flag and keeps no queue, so
this sequence is the same whether or not another request is active. -/
def handlerOps (p : EncodePayload) : List EngineOp :=
  [.writeFile inputName, .exec (paletteArgs p), .exec (encodeArgs p),
   .readFile output, .deleteFile inputName, .deleteFile palette,
   .deleteFile output]

/-- Tag each op with the index of the request issuing it. -/
def tagOps (i : Nat) (ops : List EngineOp) : List (Nat × EngineOp) :=
  ops.map (fun o => (i, o))

/-- Order-preserving interleavings of two requests' op sequences.  Because
every element of `handlerOps` is awaited and the handler takes no lock, the
worker's event loop can realise any such merge when two encode messages are
in flight; `Merge a b s` says schedule `s` is one of them. -/
inductive Merge : List (Nat × EngineOp) → List (Nat × EngineOp) → List (Nat × EngineOp) → Prop
  | nil : Merge [] [] []
  | left : Merge xs ys zs → Merge (x :: xs) ys (x :: zs)
  | right : Merge xs ys zs → Merge xs (y :: ys) (y :: zs)

/-- Schedule that strictly alternates the two requests' engine calls. -/
def interleavedSchedule (p₁ p₂ : EncodePayload) : List (Nat × EngineOp) :=
  [(0, .writeFile inputName), (1, .writeFile inputName),
   (0, .exec (paletteArgs p₁)), (1, .exec (paletteArgs p₂)),
   (0, .exec (encodeArgs p₁)), (1, .exec (encodeArgs p₂)),
   (0, .readFile output), (1, .readFile output),
   (0, .deleteFile inputName), (1, .deleteFile inputName),
   (0, .deleteFile palette), (1, .deleteFile palette),
   (0, .deleteFile output), (1, .deleteFile output)]

/-- Concrete request used to exercise the handler. -/
def samplePayload : EncodePayload :=
  ⟨[1, 2, 3], 0, 2, 10, 320, true, .medium⟩

/-- Request with an inverted range (`startSec: 5, endSec: 4`). -/
def invertedPayload : EncodePayload :=
  ⟨[1, 2, 3], 5, 4, 12, 360, true, .medium⟩

/-- Bytes of a minimal GIF header (`GIF89a`). -/
def gifBytes : List Nat := [71, 73, 70, 56, 57, 97]

/-- Engine stub where every call succeeds and the readback yields a
well-signed buffer. -/
def engAllOk : Engine :=
  ⟨.ok (), .ok (), .ok (), .ok (), .ok gifBytes, fun _ => true⟩

/-- Engine stub whose `readFile` resolves with zero bytes while everything
else, both `exec` passes included, reports success. -/
def engReadEmpty : Engine :=
  ⟨.ok (), .ok (), .ok (), .ok (), .ok [], fun _ => true⟩

/-- Engine stub whose readback yields `[0x00, 0x00, 0x00]`, a buffer lacking
the `0x47 0x49 0x46` signature, while every call reports success. -/
def engBadSig : Engine :=
  ⟨.ok (), .ok (), .ok (), .ok (), .ok [0, 0, 0], fun _ => true⟩

/-- Engine stub whose pass-1 `exec` rejects. -/
def engExec1Fail : Engine :=
  ⟨.ok (), .ok (), .error "ffmpeg exited with code 1", .ok (), .ok gifBytes, fun _ => true⟩

/-- Engine stub whose `load()` rejects. -/
def engLoadFail : Engine :=
  ⟨.error "failed to import ffmpeg-core.js", .ok (), .ok (), .ok (), .ok gifBytes, fun _ => true⟩

/-- Associativity of string concatenation, via the underlying character
lists. -/
theorem string_append_assoc (a b c : String) : a ++ b ++ c = a ++ (b ++ c) := by
  apply String.ext
  simp [String.data_append, List.append_assoc]

/-- Shape of the handler's message trace: exactly one message is posted,
either the catch-branch progress message or a `done` message. -/
theorem handleEncode_msgs_shape (eng : Engine) (p : EncodePayload) :
    (∃ e, (handleEncode eng p).msgs = [WorkerMsg.progress 1 (some (errText e))]) ∨
    (∃ d, (handleEncode eng p).msgs = [WorkerMsg.done d]) := by
  cases hl : eng.loadResult with
  | error e => exact Or.inl ⟨e, by simp [handleEncode, hl]⟩
  | ok u =>
    cases hw : eng.writeResult with
    | error e => exact Or.inl ⟨e, by simp [handleEncode, hl, hw]⟩
    | ok u =>
      cases h1 : eng.exec1Result with
      | error e => exact Or.inl ⟨e, by simp [handleEncode, hl, hw, h1]⟩
      | ok u =>
        cases h2 : eng.exec2Result with
        | error e => exact Or.inl ⟨e, by simp [handleEncode, hl, hw, h1, h2]⟩
        | ok u =>
          cases hr : eng.readResult with
          | error e => exact Or.inl ⟨e, by simp [handleEncode, hl, hw, h1, h2, hr]⟩
          | ok d => exact Or.inr ⟨d, by simp [handleEncode, hl, hw, h1, h2, hr]⟩

/-- On any failing step the handler posts exactly the catch-branch progress
message. -/
theorem handleEncode_fail_shape (eng : Engine) (p : EncodePayload)
    (h : allOk eng = false) :
    ∃ e, (handleEncode eng p).msgs = [WorkerMsg.progress 1 (some (errText e))] := by
  cases hl : eng.loadResult with
  | error e => exact ⟨e, by simp [handleEncode, hl]⟩
  | ok u =>
    cases hw : eng.writeResult with
    | error e => exact ⟨e, by simp [handleEncode, hl, hw]⟩
    | ok u =>
      cases h1 : eng.exec1Result with
      | error e => exact ⟨e, by simp [handleEncode, hl, hw, h1]⟩
      | ok u =>
        cases h2 : eng.exec2Result with
        | error e => exact ⟨e, by simp [handleEncode, hl, hw, h1, h2]⟩
        | ok u =>
          cases hr : eng.readResult with
          | error e => exact ⟨e, by simp [handleEncode, hl, hw, h1, h2, hr]⟩
          | ok d => exact absurd h (by simp [allOk, exOk, hl, hw, h1, h2, hr])

/-- Deletions are attempted exactly when every prior step succeeded. -/
theorem handleEncode_deletions (eng : Engine) (p : EncodePayload) :
    (handleEncode eng p).deletions = cond (allOk eng) (cleanupAttempts eng) [] := by
  cases hl : eng.loadResult with
  | error e => simp [handleEncode, allOk, exOk, hl]
  | ok u =>
    cases hw : eng.writeResult with
    | error e => simp [handleEncode, allOk, exOk, hl, hw]
    | ok u =>
      cases h1 : eng.exec1Result with
      | error e => simp [handleEncode, allOk, exOk, hl, hw, h1]
      | ok u =>
        cases h2 : eng.exec2Result with
        | error e => simp [handleEncode, allOk, exOk, hl, hw, h1, h2]
        | ok u =>
          cases hr : eng.readResult with
          | error e => simp [handleEncode, allOk, exOk, hl, hw, h1, h2, hr]
          | ok d => simp [handleEncode, allOk, exOk, hl, hw, h1, h2, hr]

/-- The posted messages do not depend on the deletion outcomes: the inner
`try {} catch {}` swallows every deletion rejection. -/
theorem handleEncode_msgs_indep (eng : Engine) (p : EncodePayload) (f : String → Bool) :
    (handleEncode { eng with deleteOk := f } p).msgs = (handleEncode eng p).msgs := by
  cases hl : eng.loadResult with
  | error e => simp [handleEncode, hl]
  | ok u =>
    cases hw : eng.writeResult with
    | error e => simp [handleEncode, hl, hw]
    | ok u =>
      cases h1 : eng.exec1Result with
      | error e => simp [handleEncode, hl, hw, h1]
      | ok u =>
        cases h2 : eng.exec2Result with
        | error e => simp [handleEncode, hl, hw, h1, h2]
        | ok u =>
          cases hr : eng.readResult with
          | error e => simp [handleEncode, hl, hw, h1, h2, hr]
          | ok d => simp [handleEncode, hl, hw, h1, h2, hr]

/-- Claim C1, counterexample: with an engine stub whose `readFile` resolves
with zero bytes (or with `[0x00, 0x00, 0x00]`, which lacks the
`0x47 0x49 0x46` signature) while both exec passes report success, the
handler posts the bytes as a `done` message — it does not resolve with an
`OutputValidationError` failure; no validation of length or magic occurs. -/
theorem readback_unvalidated_cex :
    (handleEncode engReadEmpty samplePayload).msgs = [WorkerMsg.done []] ∧
    (handleEncode engBadSig samplePayload).msgs = [WorkerMsg.done [0, 0, 0]] ∧
    ¬ (([0, 0, 0] : List Nat).take 3 = [71, 73, 70]) :=
  ⟨rfl, rfl, by decide⟩

/-- Claim C1, amended: after pass 2 the worker posts whatever bytes
`readFile` returned, with no length or signature check — for every engine
whose steps up to the readback succeed and whose `readFile` yields `bs`
(empty or wrongly-signed included), the request resolves with `done bs`. -/
theorem readback_resolves_unvalidated :
    ∀ (eng : Engine) (p : EncodePayload) (bs : List Nat),
      eng.loadResult = Except.ok () → eng.writeResult = Except.ok () →
      eng.exec1Result = Except.ok () → eng.exec2Result = Except.ok () →
      eng.readResult = Except.ok bs →
      (handleEncode eng p).msgs = [WorkerMsg.done bs] := by
  intro eng p bs h1 h2 h3 h4 h5
  simp [handleEncode, h1, h2, h3, h4, h5]

/-- Witness for the amended C1 theorem at the zero-byte engine stub. -/
theorem readback_resolves_unvalidated_witness :
    (handleEncode engReadEmpty samplePayload).msgs = [WorkerMsg.done []] :=
  readback_resolves_unvalidated engReadEmpty samplePayload [] rfl rfl rfl rfl rfl

/-- Claim C2, counterexample: when the pass-1 exec rejects, the handler jumps
to the catch branch and attempts no scratch deletion at all — not the
claimed unconditional deletion of all three slots on every path. -/
theorem cleanup_skipped_on_failure_cex :
    (handleEncode engExec1Fail samplePayload).deletions = [] :=
  rfl

/-- Claim C2, amended: scratch deletion runs only on the success path (a
failure of any of load, writeFile, either exec, or readFile skips cleanup
entirely); within the success path's single `try` block, the input slot is
attempted first and a deletion rejection skips the remaining slots; deletion
outcomes never affect the posted messages.  When all steps and all deletions
succeed, each slot is attempted exactly once. -/
theorem cleanup_success_path_only :
    ∀ (eng : Engine) (p : EncodePayload),
      (allOk eng = false → (handleEncode eng p).deletions = []) ∧
      (allOk eng = true → (handleEncode eng p).deletions = cleanupAttempts eng) ∧
      (eng.deleteOk inputName = true → eng.deleteOk palette = true →
        cleanupAttempts eng = [inputName, palette, output]) ∧
      (eng.deleteOk inputName = false → cleanupAttempts eng = [inputName]) ∧
      (∀ f, (handleEncode { eng with deleteOk := f } p).msgs = (handleEncode eng p).msgs) := by
  intro eng p
  refine ⟨?_, ?_, ?_, ?_, fun f => handleEncode_msgs_indep eng p f⟩
  · intro h; rw [handleEncode_deletions, h]; rfl
  · intro h; rw [handleEncode_deletions, h]; rfl
  · intro hin hpal; simp [cleanupAttempts, hin, hpal]
  · intro hin; simp [cleanupAttempts, hin]

/-- Witness for the amended C2 theorem: no deletion on the exec-1 failure
path, all three slots exactly once on the all-success path. -/
theorem cleanup_success_path_only_witness :
    (handleEncode engExec1Fail samplePayload).deletions = [] ∧
    (handleEncode engAllOk samplePayload).deletions = [inputName, palette, output] := by
  constructor
  · exact (cleanup_success_path_only engExec1Fail samplePayload).1 rfl
  · have h := (cleanup_success_path_only engAllOk samplePayload).2.1 rfl
    rw [h]
    exact (cleanup_success_path_only engAllOk samplePayload).2.2.1 rfl rfl

/-- Claim C3, counterexample: the handler takes no lock and keeps no queue,
so for two concurrent encode requests the event loop may realise the
strictly alternating schedule, in which request 0's pass-1 exec, request 1's
pass-1 exec, and request 0's pass-2 exec occur in that order — the exec
calls interleave — while both requests target the fixed scratch names. -/
theorem exec_interleaving_cex :
    Merge (tagOps 0 (handlerOps samplePayload)) (tagOps 1 (handlerOps samplePayload))
      (interleavedSchedule samplePayload samplePayload) ∧
    (interleavedSchedule samplePayload samplePayload)[2]? =
      some (0, EngineOp.exec (paletteArgs samplePayload)) ∧
    (interleavedSchedule samplePayload samplePayload)[3]? =
      some (1, EngineOp.exec (paletteArgs samplePayload)) ∧
    (interleavedSchedule samplePayload samplePayload)[4]? =
      some (0, EngineOp.exec (encodeArgs samplePayload)) := by
  refine ⟨?_, rfl, rfl, rfl⟩
  simp only [tagOps, handlerOps, interleavedSchedule, List.map]
  repeat first
    | exact Merge.nil
    | apply Merge.left
    | apply Merge.right

/-- Claim C3, amended: the worker enforces no mutual exclusion — a second
encode request is neither queued nor rejected with a Busy failure, every
order-preserving interleaving of two requests' awaited engine calls is
schedulable (the handler body consults no in-flight state), and in
particular a schedule interleaving the exec calls exists while both requests
write the same fixed scratch input name. -/
theorem no_mutual_exclusion :
    ∀ p₁ p₂ : EncodePayload,
      Merge (tagOps 0 (handlerOps p₁)) (tagOps 1 (handlerOps p₂))
        (interleavedSchedule p₁ p₂) ∧
      (interleavedSchedule p₁ p₂)[2]? = some (0, EngineOp.exec (paletteArgs p₁)) ∧
      (interleavedSchedule p₁ p₂)[3]? = some (1, EngineOp.exec (paletteArgs p₂)) ∧
      (interleavedSchedule p₁ p₂)[4]? = some (0, EngineOp.exec (encodeArgs p₁)) ∧
      (handlerOps p₁)[0]? = some (EngineOp.writeFile inputName) ∧
      (handlerOps p₂)[0]? = some (EngineOp.writeFile inputName) := by
  intro p₁ p₂
  refine ⟨?_, rfl, rfl, rfl, rfl, rfl⟩
  simp only [tagOps, handlerOps, interleavedSchedule, List.map]
  repeat first
    | exact Merge.nil
    | apply Merge.left
    | apply Merge.right

/-- Claim C4: when any worker-side step fails, the handler posts exactly one
progress-shaped message `{ratio: 1, message}` and never a `done` message;
since the UI's `handleMessage` resolves the Promise only on `done` and
rejects on no message at all, the Promise for a failed request neither
resolves nor rejects. -/
theorem failure_promise_never_settles :
    ∀ (eng : Engine) (p : EncodePayload), allOk eng = false →
      (∃ e, (handleEncode eng p).msgs = [WorkerMsg.progress 1 (some (errText e))]) ∧
      settlesWith (handleEncode eng p).msgs = none := by
  intro eng p h
  rcases handleEncode_fail_shape eng p h with ⟨e, he⟩
  exact ⟨⟨e, he⟩, by rw [he]; rfl⟩

/-- Witness for C4 at the load-failure engine stub. -/
theorem failure_promise_never_settles_witness :
    (∃ e, (handleEncode engLoadFail samplePayload).msgs =
      [WorkerMsg.progress 1 (some (errText e))]) ∧
    settlesWith (handleEncode engLoadFail samplePayload).msgs = none :=
  failure_promise_never_settles engLoadFail samplePayload rfl

/-- Claim C5: both exec calls receive the same `-ss`, `-t`, and `-i` values
(their argv lists agree on the first six entries), and the pass-1 `-vf`
string and the pass-2 `-lavfi` string extend one byte-identical
`fps=...,scale=WIDTH:-1:flags=FLAGS` filter chain. -/
theorem filter_args_consistent :
    ∀ p : EncodePayload,
      (paletteArgs p).take 6 = (encodeArgs p).take 6 ∧
      vfArg p = filterChain p ++ ",palettegen" ∧
      lavfiArg p = filterChain p ++ (" [x]; [x][1:v] paletteuse=dither="
        ++ (pickQualitySettings p.quality).dither) := by
  intro p
  exact ⟨rfl, rfl, string_append_assoc _ _ _⟩

/-- Claim C6, counterexample: after a first `ensureFfmpeg` whose `load()`
rejected, the module still caches the never-loaded instance (the state is
not back to Uninitialized), and a subsequent acquire returns that unloaded
instance immediately without invoking `load()` again — the session is stuck,
contrary to the claimed reset-and-retry behaviour. -/
theorem load_failure_sticky_cex :
    failedLoadSession.ffmpeg = some ⟨false⟩ ∧
    (ensureFfmpeg failedLoadSession true).loadInvoked = false ∧
    (ensureFfmpeg failedLoadSession true).result = some ⟨false⟩ ∧
    (ensureFfmpeg failedLoadSession true).state = failedLoadSession :=
  ⟨rfl, rfl, rfl, rfl⟩

/-- Claim C6, amended: when `load()` fails, `isLoading` is reset by the
`finally` block but the module variable keeps the never-loaded engine
instance; every subsequent `ensureFfmpeg` call — whatever its load outcome
would be — returns that unloaded instance without a fresh load attempt and
leaves the state unchanged. -/
theorem load_failure_keeps_instance :
    ∀ b : Bool,
      failedLoadSession.isLoading = false ∧
      failedLoadSession.ffmpeg = some ⟨false⟩ ∧
      (ensureFfmpeg failedLoadSession b).loadInvoked = false ∧
      (ensureFfmpeg failedLoadSession b).result = some ⟨false⟩ ∧
      (ensureFfmpeg failedLoadSession b).state = failedLoadSession :=
  fun _ => ⟨rfl, rfl, rfl, rfl, rfl⟩

/-- Claim C7, counterexample: the handler's normalization takes no
`mediaDuration` and applies no upper clamp.  At `startSec = 5`,
`endSec = 10`, `mediaDuration = 2` it returns `start = 5`, differing from
the claimed `clamp(min(startSec, endSec - 0.1), 0, mediaDuration) = 2`, and
`resultStart + resultDuration = 10` exceeds
`max(mediaDuration, resultStart + 0.1) = 5.1`. -/
theorem normalize_no_duration_clamp_cex :
    normStart 5 10 ≠ normalizeSpecStart 5 10 2 ∧
    ¬ (normStart 5 10 + normDuration 5 10 ≤ max 2 (normStart 5 10 + 1/10)) := by
  have h1 : normStart 5 10 = 5 := by
    rw [normStart, min_def, max_def]; norm_num
  have h2 : normDuration 5 10 = 5 := by
    rw [normDuration, h1, max_def]; norm_num
  have h3 : normalizeSpecStart 5 10 2 = 2 := by
    rw [normalizeSpecStart]
    rw [show min (5:ℚ) (10 - 1/10) = 5 from by rw [min_def]; norm_num]
    rw [show max (0:ℚ) 5 = 5 from by rw [max_def]; norm_num]
    rw [min_def]; norm_num
  rw [h1, h2, h3]
  constructor
  · norm_num
  · rw [max_def]; norm_num

/-- Claim C7, amended: the normalization computes
`start = max(0, min(startSec, endSec - 0.1))` with no clamp against the
media duration, and for all inputs
`resultStart + resultDuration = max(endSec, resultStart + 0.1)` — so the
segment end is `endSec` itself whenever that leaves the 0.1 s minimum, and
nothing bounds it by the media duration. -/
theorem segment_end_eq :
    ∀ s e : ℚ,
      normStart s e + normDuration s e = max e (normStart s e + 1/10) := by
  intro s e
  unfold normDuration
  rw [← max_add_add_left]
  have h : normStart s e + (e - normStart s e) = e := by ring
  rw [h, max_comm]

/-- Claim C8: for every input pair, inverted ranges included, the
normalization yields `start ≥ 0` and `duration ≥ 0.1` with no error path,
and the concrete request `startSec = 5, endSec = 4` proceeds through a
successful encode (the handler posts `done`) rather than failing with an
input error. -/
theorem normalize_total_bounds :
    (∀ s e : ℚ, 0 ≤ normStart s e ∧ (1/10 : ℚ) ≤ normDuration s e) ∧
    (handleEncode engAllOk invertedPayload).msgs = [WorkerMsg.done gifBytes] :=
  ⟨fun _ _ => ⟨le_max_left _ _, le_max_left _ _⟩, rfl⟩

/-- Claim C9: `pickQualitySettings` is the fixed pure table — low maps to
bayer dithering with bayer scale 5 plus bilinear scaling, medium (the
`default` branch) to Floyd–Steinberg plus bicubic, high to Sierra-2-4A plus
Lanczos — and it is deterministic and total on the three tiers. -/
theorem pickQualitySettings_table :
    pickQualitySettings Quality.low = ⟨"bayer:bayer_scale=5", "bilinear"⟩ ∧
    pickQualitySettings Quality.medium = ⟨"floyd_steinberg", "bicubic"⟩ ∧
    pickQualitySettings Quality.high = ⟨"sierra2_4a", "lanczos"⟩ ∧
    ∀ q : Quality, pickQualitySettings q = pickQualitySettings q :=
  ⟨rfl, rfl, rfl, fun _ => rfl⟩

/-- Claim C10: the progress subscription clamps every engine-reported value
into [0, 1] before posting, and every progress-shaped message the encode
handler itself posts (the catch branch's `{ratio: 1, message}`) also carries
a value in [0, 1]. -/
theorem progress_clamped :
    (∀ q : ℚ, 0 ≤ clampProgress q ∧ clampProgress q ≤ 1) ∧
    (∀ (eng : Engine) (p : EncodePayload) (r : ℚ) (m : Option String),
      WorkerMsg.progress r m ∈ (handleEncode eng p).msgs → 0 ≤ r ∧ r ≤ 1) := by
  constructor
  · intro q
    refine ⟨le_max_left _ _, max_le (by norm_num) (min_le_left _ _)⟩
  · intro eng p r m hm
    rcases handleEncode_msgs_shape eng p with ⟨e, he⟩ | ⟨d, hd⟩
    · rw [he, List.mem_singleton] at hm
      injection hm with hr hm2
      subst hr
      norm_num
    · rw [hd, List.mem_singleton] at hm
      exact WorkerMsg.noConfusion hm

/-- Witness for C10: the clamp at an out-of-range engine value, and the
catch-branch message of the load-failure stub. -/
theorem progress_clamped_witness :
    (0 ≤ clampProgress 2 ∧ clampProgress 2 ≤ 1) ∧ ((0:ℚ) ≤ 1 ∧ (1:ℚ) ≤ 1) := by
  refine ⟨progress_clamped.1 2,
    progress_clamped.2 engLoadFail samplePayload 1
      (some (errText "failed to import ffmpeg-core.js")) ?_⟩
  exact List.Mem.head _

end Giffer
